import Mathlib

/-!
Shallow embedding of the cryptl SHA family (FIPS 180-4) core:
`BitwiseINT.hpp` (word operations on fixed-width unsigned integers),
`SHA.hpp` (`SHA_Base` padding and block-loop driver, `SHA_Functions`
round-function library), `SHA_224.hpp` and `SHA_384.hpp` (truncating
variants).  Machine words of width `w` are represented as natural
numbers below `2 ^ w`; arithmetic wraps with an explicit `% 2 ^ w`.
-/

namespace cryptl

/-! ## BitwiseINT: operations on built-in integer types (BitwiseINT.hpp)

Each C++ static member of `BitwiseINT<T>` becomes a function over `Nat`;
the template parameter `T` (uint8_t / uint32_t / uint64_t) becomes the
explicit bit width `w` where the width matters. -/

namespace BitwiseINT

def AND (x y : Nat) : Nat := x &&& y

def OR (x y : Nat) : Nat := x ||| y

def XOR (x y : Nat) : Nat := x ^^^ y

/-- Bitwise complement `~x` of a `w`-bit word. -/
def CMPLMNT (w x : Nat) : Nat := (2 ^ w - 1) ^^^ x

def ADDMOD (w x y : Nat) : Nat := (x + y) % 2 ^ w

def MULMOD (w x y : Nat) : Nat := (x * y) % 2 ^ w

def SHL (w x n : Nat) : Nat := (x <<< n) % 2 ^ w

def SHR (x n : Nat) : Nat := x >>> n

/-- Condition of the defensive `assert` guarding `ROTL` / `ROTR` when
`USE_ASSERT` is defined: the source checks `n <= sizeof(T) * CHAR_BIT`. -/
def rotAssertOK (w n : Nat) : Bool := n ≤ w

def ROTL (w x n : Nat) : Nat := OR (SHL w x n) (SHR x (w - n))

def ROTR (w x n : Nat) : Nat := OR (SHR x n) (SHL w x (w - n))

end BitwiseINT

/-- Mathematical left rotation of a `w`-bit word by `n` places: the high
`n` bits move to the bottom, the low `w - n` bits shift up by `n`. -/
def rotLeftSpec (w x n : Nat) : Nat := x % 2 ^ (w - n) * 2 ^ n + x / 2 ^ (w - n)

/-- Mathematical right rotation of a `w`-bit word by `n` places: the low
`n` bits move to the top, the rest shifts down by `n`. -/
def rotRightSpec (w x n : Nat) : Nat := x % 2 ^ n * 2 ^ (w - n) + x / 2 ^ n

/-! ## SHA_Functions (SHA.hpp): the round-function library -/

namespace SHA_Functions

open BitwiseINT

def Ch (w x y z : Nat) : Nat := XOR (AND x y) (AND (CMPLMNT w x) z)

def Parity (x y z : Nat) : Nat := XOR (XOR x y) z

def Maj (x y z : Nat) : Nat := XOR (XOR (AND x y) (AND x z)) (AND y z)

/-- SHA-1 round selector `f(x, y, z, round)`. -/
def f (w x y z round : Nat) : Nat :=
  if round < 20 then Ch w x y z
  else if round < 40 then Parity x y z
  else if round < 60 then Maj x y z
  else Parity x y z

/-- Private helper `SIGMA(x, a, b, c)`: three-way rotate-and-XOR. -/
def SIGMA (w x a b c : Nat) : Nat := XOR (XOR (ROTR w x a) (ROTR w x b)) (ROTR w x c)

/-- Private helper `sigma(x, a, b, c)`: two rotates and a final shift. -/
def sigma (w x a b c : Nat) : Nat := XOR (XOR (ROTR w x a) (ROTR w x b)) (SHR x c)

def SIGMA_256_0 (x : Nat) : Nat := SIGMA 32 x 2 13 22

def SIGMA_256_1 (x : Nat) : Nat := SIGMA 32 x 6 11 25

def sigma_256_0 (x : Nat) : Nat := sigma 32 x 7 18 3

def sigma_256_1 (x : Nat) : Nat := sigma 32 x 17 19 10

def SIGMA_512_0 (x : Nat) : Nat := SIGMA 64 x 28 34 39

def SIGMA_512_1 (x : Nat) : Nat := SIGMA 64 x 14 18 41

def sigma_512_0 (x : Nat) : Nat := sigma 64 x 1 8 7

def sigma_512_1 (x : Nat) : Nat := sigma 64 x 19 61 6

end SHA_Functions

/-! ## SHA_Base (SHA.hpp): block sizes, padding, input check -/

inductive SHA_BlockSize where
  | BLOCK_512
  | BLOCK_1024
deriving DecidableEq

def blockSizeBits : SHA_BlockSize → Nat
  | SHA_BlockSize.BLOCK_512 => 512
  | SHA_BlockSize.BLOCK_1024 => 1024

def wordSizeBits : SHA_BlockSize → Nat
  | SHA_BlockSize.BLOCK_512 => 32
  | SHA_BlockSize.BLOCK_1024 => 64

/-- The constant `stopPadBits = blockSizeBits() - 2 * wordSizeBits()` of
`SHA_Base::padMessage`. -/
def stopPadBits (blk : SHA_BlockSize) : Nat := blockSizeBits blk - 2 * wordSizeBits blk

/-- The zero-byte padding loop of `SHA_Base::padMessage`:
`while (stopPadBits != lengthBits % blockSizeBits()) append(os, lengthBits, 0x00)`.
Each `append` emits one byte and advances `lengthBits` by `CHAR_BIT = 8`.
The C++ loop has no bound, so the embedding carries explicit fuel; the
loop body is entered only while the stop condition fails, and running out
of fuel returns `none` (the concrete loop would still be running). -/
def padZeros (B stop : Nat) : Nat → Nat → Option (List Nat × Nat)
  | 0, L0 => if stop = L0 % B then some ([], L0) else none
  | fuel + 1, L0 =>
    if stop = L0 % B then some ([], L0)
    else (padZeros B stop fuel (L0 + 8)).map (fun p => (0x00 :: p.1, p.2))

/-- Proposition that the zero-padding loop of `padMessage` ever reaches its
stop condition when started after the `0x80` byte (message length `L`, so the
loop runs at lengths `L + 8, L + 16, ...`). -/
def padLoopExits (blk : SHA_BlockSize) (L : Nat) : Prop :=
  ∃ k, stopPadBits blk = (L + 8 + 8 * k) % blockSizeBits blk

/-- `SHA_Base::padMessage(os, lengthBits)`: the byte suffix written to `os`.
The message bit length is truncated to `uint64_t` for the length field
(`const std::uint64_t msgLengthBits = lengthBits`).  Emits `0x80`, then the
zero-padding loop, then for `BLOCK_1024` eight zero bytes (high half of the
128-bit length field), then the 64-bit big-endian bit count.  `none` when
the zero-padding loop does not terminate within the (sufficient) fuel. -/
def padMessage (blk : SHA_BlockSize) (L : Nat) : Option (List Nat) :=
  let B := blockSizeBits blk
  let msgLengthBits := L % 2 ^ 64
  match padZeros B (stopPadBits blk) B (L + 8) with
  | none => none
  | some p =>
    let highHalf : List Nat :=
      if blk = SHA_BlockSize.BLOCK_1024 then List.replicate 8 0x00 else []
    let lenBytes : List Nat :=
      (List.range 8).map (fun i => (msgLengthBits >>> ((7 - i) * 8)) &&& 0xFF)
    some (0x80 :: (p.1 ++ (highHalf ++ lenBytes)))

/-- `SHA_Base::padNeeded(lengthBits)`. -/
def padNeeded (blk : SHA_BlockSize) (L : Nat) : Bool :=
  decide (0 = L) || decide (0 ≠ L % blockSizeBits blk)

/-- `SHA_Base::inputOK()`: the message word buffer is non-empty and holds a
whole number of blocks, measured in bits. -/
def inputOK (blk : SHA_BlockSize) (message : List Nat) : Bool :=
  decide (¬ message = []) && decide (message.length * wordSizeBits blk % blockSizeBits blk = 0)

/-- Big-endian reading of a byte sequence as a natural number. -/
def beNat (bytes : List Nat) : Nat := bytes.foldl (fun acc b => acc * 256 + b) 0

/-- The trailing length field of a padding suffix: its last
`2 * wordSizeBits / CHAR_BIT` bytes (8 bytes for the 512-bit-block family,
16 for the 1024-bit-block family). -/
def lengthField (blk : SHA_BlockSize) (suffix : List Nat) : List Nat :=
  suffix.drop (suffix.length - 2 * wordSizeBits blk / 8)

/-! ## SHA-256 / SHA-512 compression core

`SHA_256.hpp` and `SHA_512.hpp` are not part of the visible sources; the
spec describes their block loop (initialize state, then per 16-word block:
expand the message schedule, initialize working variables, run the
compression rounds, fold back by modular addition).  The definitions in
this section model that missing code from the spec, FIPS 180-4 being the
normative reference the spec names for constants and recurrences. -/

open BitwiseINT SHA_Functions

/-- Modelled from the spec: the standard FIPS 180-4 SHA-256 round-constant
table (64 words), which the spec requires to "match exactly". -/
def K256 : List Nat := [
  0x428A2F98, 0x71374491, 0xB5C0FBCF, 0xE9B5DBA5,
  0x3956C25B, 0x59F111F1, 0x923F82A4, 0xAB1C5ED5,
  0xD807AA98, 0x12835B01, 0x243185BE, 0x550C7DC3,
  0x72BE5D74, 0x80DEB1FE, 0x9BDC06A7, 0xC19BF174,
  0xE49B69C1, 0xEFBE4786, 0x0FC19DC6, 0x240CA1CC,
  0x2DE92C6F, 0x4A7484AA, 0x5CB0A9DC, 0x76F988DA,
  0x983E5152, 0xA831C66D, 0xB00327C8, 0xBF597FC7,
  0xC6E00BF3, 0xD5A79147, 0x06CA6351, 0x14292967,
  0x27B70A85, 0x2E1B2138, 0x4D2C6DFC, 0x53380D13,
  0x650A7354, 0x766A0ABB, 0x81C2C92E, 0x92722C85,
  0xA2BFE8A1, 0xA81A664B, 0xC24B8B70, 0xC76C51A3,
  0xD192E819, 0xD6990624, 0xF40E3585, 0x106AA070,
  0x19A4C116, 0x1E376C08, 0x2748774C, 0x34B0BCB5,
  0x391C0CB3, 0x4ED8AA4A, 0x5B9CCA4F, 0x682E6FF3,
  0x748F82EE, 0x78A5636F, 0x84C87814, 0x8CC70208,
  0x90BEFFFA, 0xA4506CEB, 0xBEF9A3F7, 0xC67178F2]

/-- Modelled from the spec: the standard FIPS 180-4 SHA-512 round-constant
table (80 words). -/
def K512 : List Nat := [
  0x428A2F98D728AE22, 0x7137449123EF65CD, 0xB5C0FBCFEC4D3B2F, 0xE9B5DBA58189DBBC,
  0x3956C25BF348B538, 0x59F111F1B605D019, 0x923F82A4AF194F9B, 0xAB1C5ED5DA6D8118,
  0xD807AA98A3030242, 0x12835B0145706FBE, 0x243185BE4EE4B28C, 0x550C7DC3D5FFB4E2,
  0x72BE5D74F27B896F, 0x80DEB1FE3B1696B1, 0x9BDC06A725C71235, 0xC19BF174CF692694,
  0xE49B69C19EF14AD2, 0xEFBE4786384F25E3, 0x0FC19DC68B8CD5B5, 0x240CA1CC77AC9C65,
  0x2DE92C6F592B0275, 0x4A7484AA6EA6E483, 0x5CB0A9DCBD41FBD4, 0x76F988DA831153B5,
  0x983E5152EE66DFAB, 0xA831C66D2DB43210, 0xB00327C898FB213F, 0xBF597FC7BEEF0EE4,
  0xC6E00BF33DA88FC2, 0xD5A79147930AA725, 0x06CA6351E003826F, 0x142929670A0E6E70,
  0x27B70A8546D22FFC, 0x2E1B21385C26C926, 0x4D2C6DFC5AC42AED, 0x53380D139D95B3DF,
  0x650A73548BAF63DE, 0x766A0ABB3C77B2A8, 0x81C2C92E47EDAEE6, 0x92722C851482353B,
  0xA2BFE8A14CF10364, 0xA81A664BBC423001, 0xC24B8B70D0F89791, 0xC76C51A30654BE30,
  0xD192E819D6EF5218, 0xD69906245565A910, 0xF40E35855771202A, 0x106AA07032BBD1B8,
  0x19A4C116B8D2D0C8, 0x1E376C085141AB53, 0x2748774CDF8EEB99, 0x34B0BCB5E19B48A8,
  0x391C0CB3C5C95A63, 0x4ED8AA4AE3418ACB, 0x5B9CCA4F7763E373, 0x682E6FF3D6B2B8A3,
  0x748F82EE5DEFB2FC, 0x78A5636F43172F60, 0x84C87814A1F0AB72, 0x8CC702081A6439EC,
  0x90BEFFFA23631E28, 0xA4506CEBDE82BDE9, 0xBEF9A3F7B2C67915, 0xC67178F2E372532B,
  0xCA273ECEEA26619C, 0xD186B8C721C0C207, 0xEADA7DD6CDE0EB1E, 0xF57D4F7FEE6ED178,
  0x06F067AA72176FBA, 0x0A637DC5A2C898A6, 0x113F9804BEF90DAE, 0x1B710B35131C471B,
  0x28DB77F523047D84, 0x32CAAB7B40C72493, 0x3C9EBE0A15C9BEBC, 0x431D67C49C100D4C,
  0x4CC5D4BECB3E42B6, 0x597F299CFC657E2A, 0x5FCB6FAB3AD6FAEC, 0x6C44198C4A475817]

/-- Modelled from the spec: the SHA-256 message schedule `W` of one 16-word
block — entries `0..15` are the block words verbatim, later entries follow
the FIPS 180-4 recurrence built from `sigma_256_0` / `sigma_256_1`. -/
def sched256 (block : List Nat) (t : Nat) : Nat :=
  if t < 16 then block.getD t 0
  else
    ADDMOD 32
      (ADDMOD 32
        (ADDMOD 32 (sigma_256_1 (sched256 block (t - 2))) (sched256 block (t - 7)))
        (sigma_256_0 (sched256 block (t - 15))))
      (sched256 block (t - 16))
termination_by t
decreasing_by all_goals omega

/-- Modelled from the spec: the SHA-512 message schedule of one block. -/
def sched512 (block : List Nat) (t : Nat) : Nat :=
  if t < 16 then block.getD t 0
  else
    ADDMOD 64
      (ADDMOD 64
        (ADDMOD 64 (sigma_512_1 (sched512 block (t - 2))) (sched512 block (t - 7)))
        (sigma_512_0 (sched512 block (t - 15))))
      (sched512 block (t - 16))
termination_by t
decreasing_by all_goals omega

/-- Modelled from the spec: one compression round over the eight working
variables `[a, b, c, d, e, f, g, h]` with schedule word `w` and round
constant `k`, for word width `wd` (32 or 64). -/
def round8 (wd s0 s1 w k : Nat) (vars : List Nat) : List Nat :=
  match vars with
  | [a, b, c, d, e, ff, g, h] =>
    let T1 := ADDMOD wd (ADDMOD wd (ADDMOD wd (ADDMOD wd h s1) (Ch wd e ff g)) k) w
    let T2 := ADDMOD wd s0 (Maj a b c)
    [ADDMOD wd T1 T2, a, b, c, ADDMOD wd d T1, e, ff, g]
  | l => l

/-- Modelled from the spec: SHA-256 compression of one 16-word block into
the running 8-word hash state, folding back by modular addition. -/
def compress256 (H block : List Nat) : List Nat :=
  let vars := (List.range 64).foldl
    (fun v t =>
      match v with
      | [a, _, _, _, e, _, _, _] =>
        round8 32 (SIGMA_256_0 a) (SIGMA_256_1 e) (sched256 block t) (K256.getD t 0) v
      | l => l)
    H
  List.zipWith (ADDMOD 32) H vars

/-- Modelled from the spec: SHA-512 compression of one 16-word block. -/
def compress512 (H block : List Nat) : List Nat :=
  let vars := (List.range 80).foldl
    (fun v t =>
      match v with
      | [a, _, _, _, e, _, _, _] =>
        round8 64 (SIGMA_512_0 a) (SIGMA_512_1 e) (sched512 block t) (K512.getD t 0) v
      | l => l)
    H
  List.zipWith (ADDMOD 64) H vars

/-- Modelled from the spec: the block loop of `SHA_Base::computeHash` for
the 512-bit-block family — consume the buffered message sixteen words at a
time, compressing each block into the hash state. -/
def sha256Blocks (H msg : List Nat) : List Nat :=
  if msg = [] then H
  else sha256Blocks (compress256 H (msg.take 16)) (msg.drop 16)
termination_by msg.length
decreasing_by
have h1 : 0 < msg.length := List.length_pos.mpr (by assumption)
simp [List.length_drop]
omega

/-- Modelled from the spec: the block loop for the 1024-bit-block family. -/
def sha512Blocks (H msg : List Nat) : List Nat :=
  if msg = [] then H
  else sha512Blocks (compress512 H (msg.take 16)) (msg.drop 16)
termination_by msg.length
decreasing_by
have h1 : 0 < msg.length := List.length_pos.mpr (by assumption)
simp [List.length_drop]
omega

/-- Modelled from the spec: the full internal, non-truncating SHA-256 run
over an already padded, buffered message, from a given initial hash value —
what the base class `SHA_256` computes and would expose as its 8-word
digest. -/
def sha256Run (iv msg : List Nat) : List Nat := sha256Blocks iv msg

/-- Modelled from the spec: the full internal, non-truncating SHA-512 run. -/
def sha512Run (iv msg : List Nat) : List Nat := sha512Blocks iv msg

/-! ## SHA_224 (SHA_224.hpp) and SHA_384 (SHA_384.hpp) truncating engines -/

/-- Initial hash value of `SHA_224::initHashValue` (FIPS 180-4 § 5.3.2). -/
def initHash224 : List Nat := [
  0xC1059ED8, 0x367CD507, 0x3070DD17, 0xF70E5939,
  0xFFC00B31, 0x68581511, 0x64F98FA7, 0xBEFA4FA4]

/-- Initial hash value of `SHA_384::initHashValue` (FIPS 180-4 § 5.3.4). -/
def initHash384 : List Nat := [
  0xCBBB9D5DC1059ED8, 0x629A292A367CD507, 0x9159015A3070DD17, 0x152FECD8F70E5939,
  0x67332667FFC00B31, 0x8EB44A8768581511, 0xDB0C2E0D64F98FA7, 0x47B5481DBEFA4FA4]

/-- State of a `SHA_224` engine: the inherited message buffer `m_message`
and hash state `m_H`, plus the truncated digest cache `m_Hleft224` and the
flag `m_setDigest`. -/
structure SHA_224 where
  message : List Nat
  H : List Nat
  Hleft : List Nat
  setDigest : Bool
deriving DecidableEq

/-- State of a `SHA_384` engine (`m_Hleft384` caches six words). -/
structure SHA_384 where
  message : List Nat
  H : List Nat
  Hleft : List Nat
  setDigest : Bool
deriving DecidableEq

/-- `SHA_224::digest()`: on the first call after a hash, copy the first 7
words of `m_H` into `m_Hleft224` and clear `m_setDigest`; return
`m_Hleft224`. -/
def SHA_224.digest (s : SHA_224) : List Nat × SHA_224 :=
  if s.setDigest then
    (s.H.take 7, { s with Hleft := s.H.take 7, setDigest := false })
  else (s.Hleft, s)

/-- `SHA_384::digest()`: same with the first 6 words of `m_H`. -/
def SHA_384.digest (s : SHA_384) : List Nat × SHA_384 :=
  if s.setDigest then
    (s.H.take 6, { s with Hleft := s.H.take 6, setDigest := false })
  else (s.Hleft, s)

/-- `SHA_Base::clearMessage()` on a SHA-224 engine. -/
def SHA_224.clearMessage (s : SHA_224) : SHA_224 := { s with message := [] }

/-- `SHA_Base::clearMessage()` on a SHA-384 engine. -/
def SHA_384.clearMessage (s : SHA_384) : SHA_384 := { s with message := [] }

/-- `SHA_Base::computeHash()` on a SHA-224 engine with `USE_ASSERT`
enabled: the leading `assert(inputOK())` aborts (`none`) before any state
change; otherwise `initHashValue`, the block loop over the buffer, and
`afterHash` (which sets `m_setDigest`).  The buffer stays unconsumed. -/
def SHA_224.computeHash (s : SHA_224) : Option SHA_224 :=
  if inputOK SHA_BlockSize.BLOCK_512 s.message then
    some { s with H := sha256Run initHash224 s.message, setDigest := true }
  else none

/-- `SHA_Base::computeHash()` on a SHA-384 engine with `USE_ASSERT`. -/
def SHA_384.computeHash (s : SHA_384) : Option SHA_384 :=
  if inputOK SHA_BlockSize.BLOCK_1024 s.message then
    some { s with H := sha512Run initHash384 s.message, setDigest := true }
  else none

/-! ## Theorems -/

/-- C6: for every three words and every round index below 80, the SHA-1
round selector `f` returns `Ch` for rounds 0–19, `Parity` for 20–39,
`Maj` for 40–59 and `Parity` for 60–79. -/
theorem f_round_selector (w x y z r : Nat) :
    (r < 20 → f w x y z r = Ch w x y z) ∧
    (20 ≤ r → r < 40 → f w x y z r = Parity x y z) ∧
    (40 ≤ r → r < 60 → f w x y z r = Maj x y z) ∧
    (60 ≤ r → r < 80 → f w x y z r = Parity x y z) := by
  refine ⟨fun h1 => ?_, fun h1 h2 => ?_, fun h1 h2 => ?_, fun h1 h2 => ?_⟩
  · simp only [f]
    rw [if_pos h1]
  · simp only [f]
    rw [if_neg (by omega), if_pos h2]
  · simp only [f]
    rw [if_neg (by omega), if_neg (by omega), if_pos h2]
  · simp only [f]
    rw [if_neg (by omega), if_neg (by omega), if_neg (by omega)]

/-- Witness for `f_round_selector` at concrete rounds 5, 25, 45, 65. -/
theorem f_round_selector_witness :
    f 32 1 2 3 5 = Ch 32 1 2 3 ∧ f 32 1 2 3 25 = Parity 1 2 3 ∧
    f 32 1 2 3 45 = Maj 1 2 3 ∧ f 32 1 2 3 65 = Parity 1 2 3 :=
  ⟨(f_round_selector 32 1 2 3 5).1 (by decide),
   (f_round_selector 32 1 2 3 25).2.1 (by decide) (by decide),
   (f_round_selector 32 1 2 3 45).2.2.1 (by decide) (by decide),
   (f_round_selector 32 1 2 3 65).2.2.2 (by decide) (by decide)⟩

/-- C7: the eight Σ/σ functions are the three-way XOR combinations of
right rotations (with a final right shift for the lowercase σ) with the
fixed amounts (2,13,22), (6,11,25), (7,18,3), (17,19,10) on 32-bit words
and (28,34,39), (14,18,41), (1,8,7), (19,61,6) on 64-bit words. -/
theorem sigma_rotation_amounts (x : Nat) :
    SIGMA_256_0 x = XOR (XOR (ROTR 32 x 2) (ROTR 32 x 13)) (ROTR 32 x 22) ∧
    SIGMA_256_1 x = XOR (XOR (ROTR 32 x 6) (ROTR 32 x 11)) (ROTR 32 x 25) ∧
    sigma_256_0 x = XOR (XOR (ROTR 32 x 7) (ROTR 32 x 18)) (SHR x 3) ∧
    sigma_256_1 x = XOR (XOR (ROTR 32 x 17) (ROTR 32 x 19)) (SHR x 10) ∧
    SIGMA_512_0 x = XOR (XOR (ROTR 64 x 28) (ROTR 64 x 34)) (ROTR 64 x 39) ∧
    SIGMA_512_1 x = XOR (XOR (ROTR 64 x 14) (ROTR 64 x 18)) (ROTR 64 x 41) ∧
    sigma_512_0 x = XOR (XOR (ROTR 64 x 1) (ROTR 64 x 8)) (SHR x 7) ∧
    sigma_512_1 x = XOR (XOR (ROTR 64 x 19) (ROTR 64 x 61)) (SHR x 6) :=
  ⟨rfl, rfl, rfl, rfl, rfl, rfl, rfl, rfl⟩

/-- C8: over the concrete integer backend, `Maj(x,x,z) = x` for all words,
and `Ch(x,y,y) = y` for every `w`-bit word `y`. -/
theorem maj_ch_identities (w x y z : Nat) :
    Maj x x z = x ∧ (y < 2 ^ w → Ch w x y y = y) := by
  constructor
  · show XOR (XOR (AND x x) (AND x z)) (AND x z) = x
    simp only [AND, XOR, Nat.and_self]
    exact Nat.xor_cancel_right _ _
  · intro hy
    show XOR (AND x y) (AND (CMPLMNT w x) y) = y
    simp only [AND, XOR, CMPLMNT]
    rw [← Nat.and_xor_distrib_right]
    have hx : x ^^^ ((2 ^ w - 1) ^^^ x) = 2 ^ w - 1 := by
      rw [Nat.xor_comm (2 ^ w - 1) x, ← Nat.xor_assoc, Nat.xor_self, Nat.zero_xor]
    rw [hx, Nat.and_comm, Nat.and_pow_two_sub_one_eq_mod, Nat.mod_eq_of_lt hy]

/-- Witness for `maj_ch_identities` at `w = 32`, `x = 7`, `y = 5`, `z = 9`. -/
theorem maj_ch_identities_witness :
    Maj 7 7 9 = 7 ∧ Ch 32 7 5 5 = 5 :=
  ⟨(maj_ch_identities 32 7 5 9).1, (maj_ch_identities 32 7 5 9).2 (by norm_num)⟩

/-- C10: `clearMessage` empties the message buffer of either engine, is
idempotent, and leaves the hash state, the cached digest words, the digest
flag and the value `digest()` would return untouched. -/
theorem clearMessage_spec (s : SHA_224) (t : SHA_384) :
    s.clearMessage.message = [] ∧
    s.clearMessage.clearMessage = s.clearMessage ∧
    s.clearMessage.H = s.H ∧ s.clearMessage.Hleft = s.Hleft ∧
    s.clearMessage.setDigest = s.setDigest ∧
    s.clearMessage.digest.1 = s.digest.1 ∧
    t.clearMessage.message = [] ∧
    t.clearMessage.clearMessage = t.clearMessage ∧
    t.clearMessage.H = t.H ∧ t.clearMessage.Hleft = t.Hleft ∧
    t.clearMessage.setDigest = t.setDigest ∧
    t.clearMessage.digest.1 = t.digest.1 := by
  cases hs : s.setDigest <;> cases ht : t.setDigest <;>
    simp [SHA_224.clearMessage, SHA_384.clearMessage,
          SHA_224.digest, SHA_384.digest, hs, ht]

/-- C9: a `digest()` call on the state a first `digest()` call leaves
behind returns the same value and the same state, hence any number of
repeated calls (the iterate form) returns the first value; on a state
whose `setDigest` flag is up (as `computeHash` leaves it), the returned
value is the 7- respectively 6-word prefix of the hash state. -/
theorem digest_idempotent (s : SHA_224) (t : SHA_384) :
    SHA_224.digest (SHA_224.digest s).2 = ((SHA_224.digest s).1, (SHA_224.digest s).2) ∧
    (∀ n, (SHA_224.digest ((fun st => (SHA_224.digest st).2)^[n] (SHA_224.digest s).2)).1
      = (SHA_224.digest s).1) ∧
    (s.setDigest = true → (SHA_224.digest s).1 = s.H.take 7) ∧
    SHA_384.digest (SHA_384.digest t).2 = ((SHA_384.digest t).1, (SHA_384.digest t).2) ∧
    (∀ n, (SHA_384.digest ((fun st => (SHA_384.digest st).2)^[n] (SHA_384.digest t).2)).1
      = (SHA_384.digest t).1) ∧
    (t.setDigest = true → (SHA_384.digest t).1 = t.H.take 6) := by
  have h224 : SHA_224.digest (SHA_224.digest s).2 = ((SHA_224.digest s).1, (SHA_224.digest s).2) := by
    cases hs : s.setDigest <;> simp [SHA_224.digest, hs]
  have h384 : SHA_384.digest (SHA_384.digest t).2 = ((SHA_384.digest t).1, (SHA_384.digest t).2) := by
    cases ht : t.setDigest <;> simp [SHA_384.digest, ht]
  refine ⟨h224, fun n => ?_, fun hs => by simp [SHA_224.digest, hs],
          h384, fun n => ?_, fun ht => by simp [SHA_384.digest, ht]⟩
  · have hfix : (fun st => (SHA_224.digest st).2) (SHA_224.digest s).2 = (SHA_224.digest s).2 := by
      simp [h224]
    rw [Function.iterate_fixed hfix n, h224]
  · have hfix : (fun st => (SHA_384.digest st).2) (SHA_384.digest t).2 = (SHA_384.digest t).2 := by
      simp [h384]
    rw [Function.iterate_fixed hfix n, h384]

/-- Witness for `digest_idempotent` at concrete engine states with the
digest flag up. -/
theorem digest_idempotent_witness :
    (SHA_224.digest (SHA_224.mk [] [1, 2, 3, 4, 5, 6, 7, 8] [] true)).1
      = [1, 2, 3, 4, 5, 6, 7] ∧
    (SHA_384.digest (SHA_384.mk [] [1, 2, 3, 4, 5, 6, 7, 8] [] true)).1
      = [1, 2, 3, 4, 5, 6] := by
  constructor
  · rw [(digest_idempotent (SHA_224.mk [] [1, 2, 3, 4, 5, 6, 7, 8] [] true)
      (SHA_384.mk [] [] [] false)).2.2.1 rfl]
    rfl
  · rw [(digest_idempotent (SHA_224.mk [] [] [] false)
      (SHA_384.mk [] [1, 2, 3, 4, 5, 6, 7, 8] [] true)).2.2.2.2.2 rfl]
    rfl

/-- C5: `inputOK` holds exactly for a non-empty buffer whose bit size is a
multiple of the block size, and when it fails, `computeHash` under
`USE_ASSERT` aborts (returns `none`) without touching the engine state. -/
theorem inputOK_spec (blk : SHA_BlockSize) (msg : List Nat) (s : SHA_224) (t : SHA_384) :
    (inputOK blk msg = true ↔
      msg ≠ [] ∧ msg.length * wordSizeBits blk % blockSizeBits blk = 0) ∧
    (inputOK SHA_BlockSize.BLOCK_512 s.message = false → SHA_224.computeHash s = none) ∧
    (inputOK SHA_BlockSize.BLOCK_1024 t.message = false → SHA_384.computeHash t = none) := by
  refine ⟨?_, fun hs => ?_, fun ht => ?_⟩
  · simp [inputOK]
  · simp [SHA_224.computeHash, hs]
  · simp [SHA_384.computeHash, ht]

/-- Witness for `inputOK_spec`: a one-block buffer is accepted, and on an
empty buffer `computeHash` aborts. -/
theorem inputOK_spec_witness :
    (inputOK SHA_BlockSize.BLOCK_512 (List.replicate 16 0) = true ↔
      List.replicate 16 (0 : Nat) ≠ [] ∧
      (List.replicate 16 (0 : Nat)).length * wordSizeBits SHA_BlockSize.BLOCK_512
        % blockSizeBits SHA_BlockSize.BLOCK_512 = 0) ∧
    SHA_224.computeHash (SHA_224.mk [] [] [] false) = none ∧
    SHA_384.computeHash (SHA_384.mk [] [] [] false) = none :=
  ⟨(inputOK_spec SHA_BlockSize.BLOCK_512 (List.replicate 16 0)
      (SHA_224.mk [] [] [] false) (SHA_384.mk [] [] [] false)).1,
   (inputOK_spec SHA_BlockSize.BLOCK_512 (List.replicate 16 0)
      (SHA_224.mk [] [] [] false) (SHA_384.mk [] [] [] false)).2.1 (by decide),
   (inputOK_spec SHA_BlockSize.BLOCK_512 (List.replicate 16 0)
      (SHA_224.mk [] [] [] false) (SHA_384.mk [] [] [] false)).2.2 (by decide)⟩

/-- Helper: in-range left rotation agrees with the mathematical rotation. -/
lemma rotl_eq_spec (w x n : Nat) (hx : x < 2 ^ w) (hn : n < w) :
    ROTL w x n = rotLeftSpec w x n := by
  have hw : (2 : Nat) ^ w = 2 ^ (w - n) * 2 ^ n := by
    rw [← pow_add]
    congr 1
    omega
  have hb : x / 2 ^ (w - n) < 2 ^ n := by
    rw [Nat.div_lt_iff_lt_mul (Nat.pos_pow_of_pos _ (by norm_num))]
    calc x < 2 ^ w := hx
    _ = 2 ^ n * 2 ^ (w - n) := by rw [hw, Nat.mul_comm]
  show BitwiseINT.OR (SHL w x n) (SHR x (w - n)) = rotLeftSpec w x n
  rw [BitwiseINT.OR, SHL, SHR, Nat.shiftLeft_eq, Nat.shiftRight_eq_div_pow, hw,
    Nat.mul_mod_mul_right, rotLeftSpec, Nat.mul_comm (x % 2 ^ (w - n)) (2 ^ n),
    ← Nat.mul_add_lt_is_or hb]

/-- Helper: in-range right rotation agrees with the mathematical rotation. -/
lemma rotr_eq_spec (w x n : Nat) (hx : x < 2 ^ w) (hn : n < w) :
    ROTR w x n = rotRightSpec w x n := by
  have hw : (2 : Nat) ^ w = 2 ^ n * 2 ^ (w - n) := by
    rw [← pow_add]
    congr 1
    omega
  have hb : x / 2 ^ n < 2 ^ (w - n) := by
    rw [Nat.div_lt_iff_lt_mul (Nat.pos_pow_of_pos _ (by norm_num))]
    calc x < 2 ^ w := hx
    _ = 2 ^ (w - n) * 2 ^ n := by rw [hw, Nat.mul_comm]
  show BitwiseINT.OR (SHR x n) (SHL w x (w - n)) = rotRightSpec w x n
  rw [BitwiseINT.OR, SHL, SHR, Nat.shiftLeft_eq, Nat.shiftRight_eq_div_pow, hw,
    Nat.mul_mod_mul_right, rotRightSpec, Nat.lor_comm,
    Nat.mul_comm (x % 2 ^ n) (2 ^ (w - n)), ← Nat.mul_add_lt_is_or hb]

/-- C4 counterexample: the shift amount `n = 32` lies outside `[0, 32)` for
a 32-bit word, yet the defensive assertion of `ROTL` / `ROTR`
(`assert(n <= sizeof(T) * CHAR_BIT)`) accepts it, so out-of-range amounts
are not all rejected. -/
theorem rot_assert_boundary_cex :
    ¬ (32 < 32) ∧ BitwiseINT.rotAssertOK 32 32 = true := by decide

/-- C4 amended: for every `w`-bit word and every amount in `[0, w)`,
`ROTL` and `ROTR` compute the left respectively right rotation; the
defensive assertion rejects every amount strictly greater than the width
but accepts the (still out-of-contract) amount `n = w`. -/
theorem rot_correct_and_assert (w x n m : Nat) :
    (x < 2 ^ w → n < w →
      ROTL w x n = rotLeftSpec w x n ∧ ROTR w x n = rotRightSpec w x n) ∧
    (w < m → BitwiseINT.rotAssertOK w m = false) ∧
    BitwiseINT.rotAssertOK w w = true := by
  refine ⟨fun hx hn => ⟨rotl_eq_spec w x n hx hn, rotr_eq_spec w x n hx hn⟩, fun hm => ?_, ?_⟩
  · simp [BitwiseINT.rotAssertOK]
    omega
  · simp [BitwiseINT.rotAssertOK]

/-- Witness for `rot_correct_and_assert` at `w = 8`, `x = 183`, `n = 3`,
`m = 9`. -/
theorem rot_correct_and_assert_witness :
    ROTL 8 183 3 = rotLeftSpec 8 183 3 ∧ ROTR 8 183 3 = rotRightSpec 8 183 3 ∧
    BitwiseINT.rotAssertOK 8 9 = false ∧ BitwiseINT.rotAssertOK 8 8 = true :=
  ⟨((rot_correct_and_assert 8 183 3 9).1 (by decide) (by decide)).1,
   ((rot_correct_and_assert 8 183 3 9).1 (by decide) (by decide)).2,
   (rot_correct_and_assert 8 183 3 9).2.1 (by decide),
   (rot_correct_and_assert 8 183 3 9).2.2⟩

/-- Helper: the zero-padding loop of the 512-bit-block family, started at a
byte-aligned length with enough fuel, emits exactly the zero bytes needed
to reach residue 448 modulo 512. -/
lemma padZeros512_some (fuel : Nat) : ∀ L0 : Nat, L0 % 8 = 0 →
    (448 + 512 - L0 % 512) % 512 ≤ 8 * fuel →
    padZeros 512 448 fuel L0 =
      some (List.replicate ((448 + 512 - L0 % 512) % 512 / 8) 0x00,
            L0 + (448 + 512 - L0 % 512) % 512) := by
  induction fuel with
  | zero =>
    intro L0 h8 hf
    have hc : 448 = L0 % 512 := by omega
    have hd : (448 + 512 - L0 % 512) % 512 = 0 := by omega
    simp [padZeros, hd, ← hc]
  | succ fuel ih =>
    intro L0 h8 hf
    by_cases hc : 448 = L0 % 512
    · have hd : (448 + 512 - L0 % 512) % 512 = 0 := by omega
      simp [padZeros, hd, ← hc]
    · have hd8 : (448 + 512 - L0 % 512) % 512 % 8 = 0 := by omega
      have hdpos : (448 + 512 - L0 % 512) % 512 ≠ 0 := by omega
      have hstep : (448 + 512 - (L0 + 8) % 512) % 512 = (448 + 512 - L0 % 512) % 512 - 8 := by
        omega
      rw [padZeros, if_neg hc, ih (L0 + 8) (by omega) (by omega), hstep, Option.map_some']
      have hdiv : ((448 + 512 - L0 % 512) % 512 - 8) / 8 + 1 = (448 + 512 - L0 % 512) % 512 / 8 := by
        omega
      rw [← hdiv, List.replicate_succ]
      have : L0 + 8 + ((448 + 512 - L0 % 512) % 512 - 8) = L0 + (448 + 512 - L0 % 512) % 512 := by
        omega
      rw [this]

/-- Helper: the 1024-bit-block zero-padding loop, byte-aligned start. -/
lemma padZeros1024_some (fuel : Nat) : ∀ L0 : Nat, L0 % 8 = 0 →
    (896 + 1024 - L0 % 1024) % 1024 ≤ 8 * fuel →
    padZeros 1024 896 fuel L0 =
      some (List.replicate ((896 + 1024 - L0 % 1024) % 1024 / 8) 0x00,
            L0 + (896 + 1024 - L0 % 1024) % 1024) := by
  induction fuel with
  | zero =>
    intro L0 h8 hf
    have hc : 896 = L0 % 1024 := by omega
    have hd : (896 + 1024 - L0 % 1024) % 1024 = 0 := by omega
    simp [padZeros, hd, ← hc]
  | succ fuel ih =>
    intro L0 h8 hf
    by_cases hc : 896 = L0 % 1024
    · have hd : (896 + 1024 - L0 % 1024) % 1024 = 0 := by omega
      simp [padZeros, hd, ← hc]
    · have hd8 : (896 + 1024 - L0 % 1024) % 1024 % 8 = 0 := by omega
      have hdpos : (896 + 1024 - L0 % 1024) % 1024 ≠ 0 := by omega
      have hstep : (896 + 1024 - (L0 + 8) % 1024) % 1024 = (896 + 1024 - L0 % 1024) % 1024 - 8 := by
        omega
      rw [padZeros, if_neg hc, ih (L0 + 8) (by omega) (by omega), hstep, Option.map_some']
      have hdiv : ((896 + 1024 - L0 % 1024) % 1024 - 8) / 8 + 1
          = (896 + 1024 - L0 % 1024) % 1024 / 8 := by
        omega
      rw [← hdiv, List.replicate_succ]
      have : L0 + 8 + ((896 + 1024 - L0 % 1024) % 1024 - 8) = L0 + (896 + 1024 - L0 % 1024) % 1024 := by
        omega
      rw [this]

/-- Helper: started at a non-byte-aligned length, the 512-bit-block
zero-padding loop never meets its stop condition, whatever the fuel. -/
lemma padZeros512_none (fuel : Nat) : ∀ L0 : Nat, L0 % 8 ≠ 0 →
    padZeros 512 448 fuel L0 = none := by
  induction fuel with
  | zero =>
    intro L0 h8
    rw [padZeros, if_neg (by omega)]
  | succ fuel ih =>
    intro L0 h8
    rw [padZeros, if_neg (by omega), ih (L0 + 8) (by omega), Option.map_none']

/-- Helper: same for the 1024-bit-block family. -/
lemma padZeros1024_none (fuel : Nat) : ∀ L0 : Nat, L0 % 8 ≠ 0 →
    padZeros 1024 896 fuel L0 = none := by
  induction fuel with
  | zero =>
    intro L0 h8
    rw [padZeros, if_neg (by omega)]
  | succ fuel ih =>
    intro L0 h8
    rw [padZeros, if_neg (by omega), ih (L0 + 8) (by omega), Option.map_none']

/-- C3: the zero-padding loop of `padMessage` reaches its stop residue
`blockSize - 2 * wordSize` exactly when the message bit length is a
multiple of `CHAR_BIT = 8` (padding is appended in whole bytes); for every
other bit length the loop condition is never satisfied, so `padMessage`
produces no suffix. -/
theorem padMessage_terminates_iff_byte_aligned (blk : SHA_BlockSize) (L : Nat) :
    (padLoopExits blk L ↔ L % 8 = 0) ∧ ((padMessage blk L).isSome ↔ L % 8 = 0) := by
  cases blk
  case BLOCK_512 =>
    constructor
    · constructor
      · rintro ⟨k, hk⟩
        simp only [stopPadBits, blockSizeBits, wordSizeBits] at hk
        omega
      · intro h8
        exact ⟨(448 + 512 - (L + 8) % 512) % 512 / 8, by
          simp only [stopPadBits, blockSizeBits, wordSizeBits]
          omega⟩
    · by_cases h8 : L % 8 = 0
      · rw [padMessage]
        simp only [stopPadBits, blockSizeBits, wordSizeBits]
        rw [padZeros512_some 512 (L + 8) (by omega) (by omega)]
        simp [h8]
      · rw [padMessage]
        simp only [stopPadBits, blockSizeBits, wordSizeBits]
        rw [padZeros512_none 512 (L + 8) (by omega)]
        simp [h8]
  case BLOCK_1024 =>
    constructor
    · constructor
      · rintro ⟨k, hk⟩
        simp only [stopPadBits, blockSizeBits, wordSizeBits] at hk
        omega
      · intro h8
        exact ⟨(896 + 1024 - (L + 8) % 1024) % 1024 / 8, by
          simp only [stopPadBits, blockSizeBits, wordSizeBits]
          omega⟩
    · by_cases h8 : L % 8 = 0
      · rw [padMessage]
        simp only [stopPadBits, blockSizeBits, wordSizeBits]
        rw [padZeros1024_some 1024 (L + 8) (by omega) (by omega)]
        simp [h8]
      · rw [padMessage]
        simp only [stopPadBits, blockSizeBits, wordSizeBits]
        rw [padZeros1024_none 1024 (L + 8) (by omega)]
        simp [h8]

/-- The eight bytes of the big-endian 64-bit length field `padMessage`
emits (`(msgLengthBits >> i * CHAR_BIT) & 0xFF` for `i = 7 .. 0`). -/
def lenBytes64 (L : Nat) : List Nat :=
  (List.range 8).map (fun i => ((L % 2 ^ 64) >>> ((7 - i) * 8)) &&& 0xFF)

/-- Helper: closed form of `padMessage` for the 512-bit-block family on a
byte-aligned length. -/
lemma padMessage512_eq (L : Nat) (h8 : L % 8 = 0) :
    padMessage SHA_BlockSize.BLOCK_512 L =
      some (0x80 :: (List.replicate ((448 + 512 - (L + 8) % 512) % 512 / 8) 0x00
        ++ lenBytes64 L)) := by
  rw [padMessage]
  simp only [stopPadBits, blockSizeBits, wordSizeBits]
  rw [padZeros512_some 512 (L + 8) (by omega) (by omega)]
  simp [lenBytes64]

/-- Helper: closed form of `padMessage` for the 1024-bit-block family on a
byte-aligned length. -/
lemma padMessage1024_eq (L : Nat) (h8 : L % 8 = 0) :
    padMessage SHA_BlockSize.BLOCK_1024 L =
      some (0x80 :: (List.replicate ((896 + 1024 - (L + 8) % 1024) % 1024 / 8) 0x00
        ++ (List.replicate 8 0x00 ++ lenBytes64 L))) := by
  rw [padMessage]
  simp only [stopPadBits, blockSizeBits, wordSizeBits]
  rw [padZeros1024_some 1024 (L + 8) (by omega) (by omega)]
  simp [lenBytes64]

/-- Helper: the length field is eight bytes long. -/
lemma lenBytes64_length (L : Nat) : (lenBytes64 L).length = 8 := by
  simp [lenBytes64]

/-- Helper: reading the emitted 64-bit length field back as a big-endian
integer recovers the bit length. -/
lemma beNat_lenBytes64 (L : Nat) (hL : L < 2 ^ 64) : beNat (lenBytes64 L) = L := by
  have hr : List.range 8 = [0, 1, 2, 3, 4, 5, 6, 7] := rfl
  have hand : ∀ a : Nat, a &&& 0xFF = a % 256 := fun a => Nat.and_pow_two_sub_one_eq_mod a 8
  rw [lenBytes64, hr]
  simp only [Nat.mod_eq_of_lt hL, List.map_cons, List.map_nil, beNat, List.foldl_cons,
    List.foldl_nil, hand, Nat.shiftRight_eq_div_pow]
  norm_num
  omega

/-- C2 counterexample: at the bit length `L = 1` (not a whole number of
bytes) the zero-padding loop of `padMessage` never meets its stop
condition, so no suffix is ever emitted — the padding property cannot hold
for every bit length. -/
theorem padMessage_not_total_cex :
    ¬ padLoopExits SHA_BlockSize.BLOCK_512 1 ∧
    padMessage SHA_BlockSize.BLOCK_512 1 = none := by
  constructor
  · rintro ⟨k, hk⟩
    simp only [stopPadBits, blockSizeBits, wordSizeBits] at hk
    omega
  · rw [padMessage]
    simp only [stopPadBits, blockSizeBits, wordSizeBits]
    rw [padZeros512_none 512 9 (by omega)]

/-- C2 amended: for every byte-aligned message bit length `L` in the range
of the 64-bit length field, `padMessage` emits a suffix making
`L + len(suffix)` a multiple of the block size, and the suffix's trailing
length-field bits, read as a big-endian integer, equal `L`. -/
theorem padMessage_aligned_correct (blk : SHA_BlockSize) (L : Nat)
    (h8 : L % 8 = 0) (hL : L < 2 ^ 64) :
    ∃ suffix, padMessage blk L = some suffix ∧
      (L + 8 * suffix.length) % blockSizeBits blk = 0 ∧
      beNat (lengthField blk suffix) = L := by
  cases blk
  case BLOCK_512 =>
    refine ⟨_, padMessage512_eq L h8, ?_, ?_⟩
    · simp only [List.length_cons, List.length_append, List.length_replicate,
        lenBytes64_length, blockSizeBits]
      omega
    · rw [lengthField]
      simp only [wordSizeBits, List.length_cons, List.length_append, List.length_replicate,
        lenBytes64_length]
      rw [← List.cons_append]
      rw [List.drop_left' (by simp [lenBytes64_length]), beNat_lenBytes64 L hL]
  case BLOCK_1024 =>
    refine ⟨_, padMessage1024_eq L h8, ?_, ?_⟩
    · simp only [List.length_cons, List.length_append, List.length_replicate,
        lenBytes64_length, blockSizeBits]
      omega
    · rw [lengthField]
      simp only [wordSizeBits, List.length_cons, List.length_append, List.length_replicate,
        lenBytes64_length]
      rw [← List.cons_append]
      rw [List.drop_left' (by simp [lenBytes64_length])]
      have hz : List.replicate 8 (0x00 : Nat) = [0, 0, 0, 0, 0, 0, 0, 0] := rfl
      rw [beNat, hz, List.foldl_append]
      norm_num
      have hben := beNat_lenBytes64 L hL
      rw [beNat] at hben
      exact hben

/-- Witness for `padMessage_aligned_correct` at `L = 24`. -/
theorem padMessage_aligned_correct_witness :
    (24 : Nat) % 8 = 0 ∧ (24 : Nat) < 2 ^ 64 ∧
    ∃ suffix, padMessage SHA_BlockSize.BLOCK_512 24 = some suffix ∧
      (24 + 8 * suffix.length) % blockSizeBits SHA_BlockSize.BLOCK_512 = 0 ∧
      beNat (lengthField SHA_BlockSize.BLOCK_512 suffix) = 24 :=
  ⟨by decide, by decide,
   padMessage_aligned_correct SHA_BlockSize.BLOCK_512 24 (by decide) (by decide)⟩

/-- C1: for every block-aligned message accepted by `computeHash`, the
SHA-224 `digest()` equals the first 7 of the 8 words the internal
non-truncating SHA-256 run over the identical padded message produces, and
the SHA-384 `digest()` equals the first 6 of the 8 words of the internal
SHA-512 run. -/
theorem truncation_refinement (s s2 : SHA_224) (t t2 : SHA_384)
    (hs : SHA_224.computeHash s = some s2) (ht : SHA_384.computeHash t = some t2) :
    s2.digest.1 = (sha256Run initHash224 s.message).take 7 ∧
    t2.digest.1 = (sha512Run initHash384 t.message).take 6 := by
  rw [SHA_224.computeHash] at hs
  rw [SHA_384.computeHash] at ht
  constructor
  · by_cases hok : inputOK SHA_BlockSize.BLOCK_512 s.message = true
    · rw [if_pos hok] at hs
      cases hs
      simp [SHA_224.digest]
    · rw [if_neg hok] at hs
      cases hs
  · by_cases hok : inputOK SHA_BlockSize.BLOCK_1024 t.message = true
    · rw [if_pos hok] at ht
      cases ht
      simp [SHA_384.digest]
    · rw [if_neg hok] at ht
      cases ht

/-- A one-block all-zero SHA-256-family message. -/
def zeroBlock256 : List Nat := List.replicate 16 0

/-- A one-block all-zero SHA-512-family message. -/
def zeroBlock512 : List Nat := List.replicate 16 0

/-- A fresh SHA-224 engine holding one buffered block. -/
def sampleState224 : SHA_224 := ⟨zeroBlock256, [], [], false⟩

/-- The engine state `computeHash` produces from `sampleState224`. -/
def sampleHashed224 : SHA_224 :=
  ⟨zeroBlock256, sha256Run initHash224 zeroBlock256, [], true⟩

/-- A fresh SHA-384 engine holding one buffered block. -/
def sampleState384 : SHA_384 := ⟨zeroBlock512, [], [], false⟩

/-- The engine state `computeHash` produces from `sampleState384`. -/
def sampleHashed384 : SHA_384 :=
  ⟨zeroBlock512, sha512Run initHash384 zeroBlock512, [], true⟩

/-- Witness for `truncation_refinement` on the concrete one-block all-zero
message. -/
theorem truncation_refinement_witness :
    SHA_224.computeHash sampleState224 = some sampleHashed224 ∧
    SHA_384.computeHash sampleState384 = some sampleHashed384 ∧
    sampleHashed224.digest.1 = (sha256Run initHash224 zeroBlock256).take 7 ∧
    sampleHashed384.digest.1 = (sha512Run initHash384 zeroBlock512).take 6 := by
  have h1 : SHA_224.computeHash sampleState224 = some sampleHashed224 := by
    rw [SHA_224.computeHash, if_pos (by decide)]
    rfl
  have h2 : SHA_384.computeHash sampleState384 = some sampleHashed384 := by
    rw [SHA_384.computeHash, if_pos (by decide)]
    rfl
  exact ⟨h1, h2, (truncation_refinement _ _ _ _ h1 h2).1,
    (truncation_refinement _ _ _ _ h1 h2).2⟩

end cryptl
